import Mathlib

/-!
Verification development for the Dify DB search MCP server (`server.py`).

The Python source is shallowly embedded: Python values are modelled by the
nested inductive `PyVal`; attribute access that can raise in Python
(`.get` / `.lower()` on a value of the wrong type) is modelled in the
`Except String` monad, so an uncaught Python exception corresponds to an
`Except.error` result.  SQL queries issued by `search_dify_credentials`
are modelled over in-memory tables: `ILIKE '%kw%'` as case-insensitive
substring containment, `ORDER BY` as `List.insertionSort`, PostgreSQL
`DISTINCT ON` as keeping the first row of each key group of the sorted
list, and `LIMIT 50` as `List.take 50`.  The JSON deserializer
(`json.loads`) is an external standard-library function and is passed in
as an abstract `parse : String → Option PyVal` parameter.
-/

/-- Model of a Python runtime value as it occurs in this program:
`None`, `str`, `int` (also standing in for other scalar types such as
timestamps), `bool`, `list`, and `dict` with string keys. -/
inductive PyVal where
  | none
  | str (s : String)
  | int (n : Int)
  | bool (b : Bool)
  | list (elems : List PyVal)
  | dict (fields : List (String × PyVal))

mutual

/-- Python `repr` of a value (only the shape matters for the claims;
string quoting is modelled with single quotes, as CPython prints). -/
def pyRepr : PyVal → String
  | .none => "None"
  | .str s => "\x27" ++ s ++ "\x27"
  | .int n => toString n
  | .bool b => if b then "True" else "False"
  | .list es => "[" ++ pyReprElems es ++ "]"
  | .dict fs => "\x7b" ++ pyReprFields fs ++ "\x7d"

/-- Python `repr` of the elements of a list, comma separated. -/
def pyReprElems : List PyVal → String
  | [] => ""
  | [e] => pyRepr e
  | e :: es => pyRepr e ++ ", " ++ pyReprElems es

/-- Python `repr` of the bindings of a dict, comma separated. -/
def pyReprFields : List (String × PyVal) → String
  | [] => ""
  | [(k, v)] => "\x27" ++ k ++ "\x27: " ++ pyRepr v
  | (k, v) :: fs => "\x27" ++ k ++ "\x27: " ++ pyRepr v ++ ", " ++ pyReprFields fs
end

/-- Python `str()` coercion: identity on strings, `repr`-like otherwise. -/
def pyStr : PyVal → String
  | .str s => s
  | v => pyRepr v

/-- Python string lower-casing (`str.lower`), modelled per character. -/
def strLower (s : String) : String := String.mk (s.data.map Char.toLower)

/-- Substring test on character lists: `needle` occurs contiguously in the
list. -/
def listContainsSub (needle : List Char) : List Char → Bool
  | [] => needle.isEmpty
  | c :: cs => needle.isPrefixOf (c :: cs) || listContainsSub needle cs

/-- The Python `in` operator on strings: `needle in hay`. -/
def pyInStr (needle hay : String) : Bool := listContainsSub needle.data hay.data

/-- Python truthiness of a value (`if not x` tests). -/
def pyTruthy : PyVal → Bool
  | .none => false
  | .str s => !s.data.isEmpty
  | .int n => n != 0
  | .bool b => b
  | .list es => !es.isEmpty
  | .dict fs => !fs.isEmpty

/-- Lookup in a Python dict's field list (first binding wins, matching
insertion semantics where keys are unique), with a default. -/
def dGetD (fields : List (String × PyVal)) (k : String) (d : PyVal) : PyVal :=
  match fields.find? (fun p => p.1 == k) with
  | Option.some p => p.2
  | Option.none => d

/-- Python `v.get(k, d)`: defined on dicts, raises `AttributeError` on any
other value. -/
def pyGet (v : PyVal) (k : String) (d : PyVal) : Except String PyVal :=
  match v with
  | .dict fields => Except.ok (dGetD fields k d)
  | _ => Except.error "AttributeError: object has no attribute get"

/-- Python `v.lower()`: defined on strings, raises `AttributeError`
otherwise. -/
def pyLower (v : PyVal) : Except String String :=
  match v with
  | .str s => Except.ok (strLower s)
  | _ => Except.error "AttributeError: object has no attribute lower"

/-- Python iteration `for x in v`: lists yield elements, strings yield
one-character strings, dicts yield their keys; other values raise
`TypeError`. -/
def pyIter : PyVal → Except String (List PyVal)
  | .list es => Except.ok es
  | .str s => Except.ok (s.data.map fun c => PyVal.str (String.mk [c]))
  | .dict fs => Except.ok (fs.map fun p => PyVal.str p.1)
  | _ => Except.error "TypeError: object is not iterable"

/-- Python equality of a value against a string literal (`v == "s"` never
raises; it is `False` for non-strings). -/
def pyEqStr (v : PyVal) (s : String) : Bool :=
  match v with
  | .str t => t == s
  | _ => false

/-- Whether a value is a Python dict (`isinstance(v, dict)`). -/
def isDict : PyVal → Bool
  | .dict _ => true
  | _ => false

/-- Whether a value is a Python list. -/
def isList : PyVal → Bool
  | .list _ => true
  | _ => false

/-- Python dict assignment `item[k] = v`: overwrite in place if the key is
present, else append the binding. -/
def pyDictSet (fields : List (String × PyVal)) (k : String) (v : PyVal) :
    List (String × PyVal) :=
  if fields.any (fun p => p.1 == k) then
    fields.map (fun p => if p.1 == k then (p.1, v) else p)
  else fields ++ [(k, v)]

/-- A database row record, supporting column-name lookup (asyncpg
`Record`). -/
def DbRecord : Type := String → PyVal

/-- Value conversion rule of `_format_rows`: structured values (dict or
list) pass through; `None` stays `None`; anything else becomes its
Python string representation. -/
def formatVal (val : PyVal) : PyVal :=
  match val with
  | .dict _ => val
  | .list _ => val
  | .none => .none
  | _ => .str (pyStr val)

/-- One output item of `_format_rows`: a dict built by assigning each
selected column in order. -/
def formatItem (row : DbRecord) (columns : List String) : List (String × PyVal) :=
  columns.foldl (fun item col => pyDictSet item col (formatVal (row col))) []

/-- `_format_rows(rows, columns)` from `server.py`: convert records to a
list of dicts restricted to the selected columns, in row order. -/
def _format_rows (rows : List DbRecord) (columns : List String) :
    List (List (String × PyVal)) :=
  rows.map (fun row => formatItem row columns)

/-- Semantics of `field ILIKE '%kw%'` in the queries of `server.py`:
case-insensitive substring containment of the keyword in the field.
(All three queries wrap the keyword as `f"%{keyword}%"`; keywords are
treated as plain text, i.e. without further SQL wildcards.) -/
def ilikeContains (field kw : String) : Bool :=
  pyInStr (strLower kw) (strLower field)

/-- A row of the `provider_model_credentials` table (columns used by the
query; `credential_name` is consulted by the WHERE clause only). -/
structure ProviderModelCredentialsRow where
  provider_name : String
  model_name : String
  model_type : String
  encrypted_config : String
  credential_name : String
  created_at : Int
  updated_at : Int
  deriving DecidableEq

/-- A row of the `tool_builtin_providers` table. -/
structure ToolBuiltinProvidersRow where
  provider : String
  encrypted_credentials : String
  created_at : Int
  updated_at : Int
  deriving DecidableEq

/-- A row of the `workflows` table as consulted by
`search_dify_credentials` (the `environment_variables` query). -/
structure WorkflowsEnvRow where
  app_id : Nat
  environment_variables : String
  created_at : Int
  updated_at : Int
  deriving DecidableEq

/-- The `ORDER BY updated_at DESC` relation. -/
def updatedAtDesc {α : Type} (upd : α → Int) (a b : α) : Prop :=
  upd b ≤ upd a

instance {α : Type} (upd : α → Int) : DecidableRel (updatedAtDesc upd) :=
  fun a b => inferInstanceAs (Decidable (upd b ≤ upd a))

instance {α : Type} (upd : α → Int) : IsTotal α (updatedAtDesc upd) :=
  ⟨fun a b => (Int.le_total (upd b) (upd a)).imp id id⟩

instance {α : Type} (upd : α → Int) : IsTrans α (updatedAtDesc upd) :=
  ⟨fun _ _ _ hab hbc => Int.le_trans hbc hab⟩

/-- The `ORDER BY w.app_id, w.updated_at DESC` relation of the
`DISTINCT ON (w.app_id)` queries: app id ascending first, update
timestamp descending within an app id. -/
def appIdThenUpdatedDesc {α : Type} (key : α → Nat) (upd : α → Int) (a b : α) : Prop :=
  key a < key b ∨ (key a = key b ∧ upd b ≤ upd a)

instance {α : Type} (key : α → Nat) (upd : α → Int) :
    DecidableRel (appIdThenUpdatedDesc key upd) :=
  fun a b =>
    inferInstanceAs (Decidable (key a < key b ∨ (key a = key b ∧ upd b ≤ upd a)))

instance {α : Type} (key : α → Nat) (upd : α → Int) :
    IsTotal α (appIdThenUpdatedDesc key upd) := by
  constructor
  intro a b
  rcases Nat.lt_trichotomy (key a) (key b) with h | h | h
  · exact Or.inl (Or.inl h)
  · rcases Int.le_total (upd b) (upd a) with h2 | h2
    · exact Or.inl (Or.inr ⟨h, h2⟩)
    · exact Or.inr (Or.inr ⟨h.symm, h2⟩)
  · exact Or.inr (Or.inl h)

instance {α : Type} (key : α → Nat) (upd : α → Int) :
    IsTrans α (appIdThenUpdatedDesc key upd) := by
  constructor
  intro a b c hab hbc
  rcases hab with hab | ⟨hab, hab2⟩
  · rcases hbc with hbc | ⟨hbc, _⟩
    · exact Or.inl (Nat.lt_trans hab hbc)
    · exact Or.inl (hbc ▸ hab)
  · rcases hbc with hbc | ⟨hbc, hbc2⟩
    · exact Or.inl (hab ▸ hbc)
    · exact Or.inr ⟨hab.trans hbc, Int.le_trans hbc2 hab2⟩

/-- Row selection of PostgreSQL `SELECT DISTINCT ON (key) ...` on an
already sorted row list: keep each row whose key has not been seen
before it (the first row of each key group), given the keys seen so
far. -/
def distinctOnFirstAux {α : Type} (key : α → Nat) (seen : List Nat) :
    List α → List α
  | [] => []
  | r :: rs =>
    if key r ∈ seen then distinctOnFirstAux key seen rs
    else r :: distinctOnFirstAux key (key r :: seen) rs

/-- PostgreSQL `SELECT DISTINCT ON (key) ...` applied to an already
sorted row list: keep the first row of each key group. -/
def distinctOnFirst {α : Type} (key : α → Nat) (l : List α) : List α :=
  distinctOnFirstAux key [] l

/-- Query 1 of `search_dify_credentials`: filter on
`encrypted_config ILIKE $1 OR credential_name ILIKE $1`, order by
`updated_at DESC`, `LIMIT 50`. -/
def provider_model_credentials_query (keyword : String)
    (tbl : List ProviderModelCredentialsRow) : List ProviderModelCredentialsRow :=
  (List.insertionSort (updatedAtDesc ProviderModelCredentialsRow.updated_at)
      (tbl.filter (fun r => ilikeContains r.encrypted_config keyword
        || ilikeContains r.credential_name keyword))).take 50

/-- Query 2 of `search_dify_credentials`: filter on
`encrypted_credentials ILIKE $1`, order by `updated_at DESC`, `LIMIT 50`. -/
def tool_builtin_providers_query (keyword : String)
    (tbl : List ToolBuiltinProvidersRow) : List ToolBuiltinProvidersRow :=
  (List.insertionSort (updatedAtDesc ToolBuiltinProvidersRow.updated_at)
      (tbl.filter (fun r => ilikeContains r.encrypted_credentials keyword))).take 50

/-- Query 3 of `search_dify_credentials`: `SELECT DISTINCT ON (w.app_id)`
with `WHERE environment_variables ILIKE $1`,
`ORDER BY w.app_id, w.updated_at DESC`, `LIMIT 50`. -/
def workflows_env_query (keyword : String)
    (tbl : List WorkflowsEnvRow) : List WorkflowsEnvRow :=
  (distinctOnFirst WorkflowsEnvRow.app_id
      (List.insertionSort
        (appIdThenUpdatedDesc WorkflowsEnvRow.app_id WorkflowsEnvRow.updated_at)
        (tbl.filter (fun r => ilikeContains r.environment_variables keyword)))).take 50

/-- View of a `provider_model_credentials` row as a record for
`_format_rows` (timestamps modelled as ints). -/
def ProviderModelCredentialsRow.toRecord (r : ProviderModelCredentialsRow) : DbRecord :=
  fun c =>
    if c = "provider_name" then .str r.provider_name
    else if c = "model_name" then .str r.model_name
    else if c = "model_type" then .str r.model_type
    else if c = "encrypted_config" then .str r.encrypted_config
    else if c = "created_at" then .int r.created_at
    else if c = "updated_at" then .int r.updated_at
    else .none

/-- View of a `tool_builtin_providers` row as a record for `_format_rows`. -/
def ToolBuiltinProvidersRow.toRecord (r : ToolBuiltinProvidersRow) : DbRecord :=
  fun c =>
    if c = "provider" then .str r.provider
    else if c = "encrypted_credentials" then .str r.encrypted_credentials
    else if c = "created_at" then .int r.created_at
    else if c = "updated_at" then .int r.updated_at
    else .none

/-- View of a `workflows` environment-variables row as a record for
`_format_rows`. -/
def WorkflowsEnvRow.toRecord (r : WorkflowsEnvRow) : DbRecord :=
  fun c =>
    if c = "app_id" then .int r.app_id
    else if c = "environment_variables" then .str r.environment_variables
    else if c = "created_at" then .int r.created_at
    else if c = "updated_at" then .int r.updated_at
    else .none

/-- The per-source result lists of `search_dify_credentials`, in the
insertion order of the Python `results` dict. -/
structure CredentialResults where
  provider_model_credentials : List (List (String × PyVal))
  tool_builtin_providers : List (List (String × PyVal))
  workflows : List (List (String × PyVal))

/-- The response envelope of `search_dify_credentials` (before JSON
serialization, which is external). -/
structure CredentialEnvelope where
  summary : String
  keyword : String
  results : CredentialResults

/-- `search_dify_credentials(keyword)` from `server.py`, over in-memory
tables standing for the database state seen by the three queries. -/
def search_dify_credentials (keyword : String)
    (pmcTbl : List ProviderModelCredentialsRow)
    (tbpTbl : List ToolBuiltinProvidersRow)
    (wfTbl : List WorkflowsEnvRow) : CredentialEnvelope :=
  let r1 := _format_rows
    ((provider_model_credentials_query keyword pmcTbl).map
      ProviderModelCredentialsRow.toRecord)
    ["provider_name", "model_name", "model_type", "encrypted_config",
     "created_at", "updated_at"]
  let r2 := _format_rows
    ((tool_builtin_providers_query keyword tbpTbl).map
      ToolBuiltinProvidersRow.toRecord)
    ["provider", "encrypted_credentials", "created_at", "updated_at"]
  let r3 := _format_rows
    ((workflows_env_query keyword wfTbl).map WorkflowsEnvRow.toRecord)
    ["app_id", "environment_variables", "created_at", "updated_at"]
  { summary :=
      "[provider_model_credentials] 找到 " ++ toString r1.length ++ " 条记录 | "
        ++ "[tool_builtin_providers] 找到 " ++ toString r2.length ++ " 条记录 | "
        ++ "[workflows] 找到 " ++ toString r3.length ++ " 条记录"
    keyword := keyword
    results := ⟨r1, r2, r3⟩ }

/-- A row returned by the workflow queries of `search_workflows_by_plugin`
and `search_workflows_by_llm` (`workflows` left-joined with `apps`):
`app_id`, a possibly-null `app_name`, the serialized `graph` text
(nullable), and two timestamps. -/
structure WorkflowJoinRow where
  app_id : PyVal
  app_name : PyVal
  graph : Option String
  created_at : PyVal
  updated_at : PyVal

/-- One entry of `matching_tools` in `search_workflows_by_plugin`. -/
structure ToolEntry where
  node_id : PyVal
  node_title : PyVal
  provider_id : PyVal
  tool_name : PyVal

/-- One entry of `matching_llms` in `search_workflows_by_llm`. -/
structure LlmEntry where
  node_id : PyVal
  node_title : PyVal
  model : PyVal
  provider : PyVal

/-- The node-title resolution on the matched-tool path of
`search_workflows_by_plugin`:
`data.get("title", node.get("data", {}).get("title", ""))`, with the
default argument evaluated first, as in Python. -/
def titleResolution (node data : PyVal) : Except String PyVal := do
  let inner ← pyGet node "data" (.dict [])
  let innerTitle ← pyGet inner "title" (.str "")
  pyGet data "title" innerTitle

/-- The plain title lookup `data.get("title", "")`. -/
def titleSimple (data : PyVal) : Except String PyVal :=
  pyGet data "title" (.str "")

/-- Construction of the matched-tool dict in `search_workflows_by_plugin`
(the dict literal built once the keyword matches). -/
def mkToolEntry (node data provider_id tool_name : PyVal) :
    Except String (Option ToolEntry) := do
  let node_id ← pyGet node "id" (.str "")
  let node_title ← titleResolution node data
  pure (Option.some ⟨node_id, node_title, provider_id, tool_name⟩)

/-- The per-node body of the tool-node loop of
`search_workflows_by_plugin`: skip non-tool nodes, read `provider_id` and
`tool_name` with empty-string defaults, and include the node when the
lowered keyword occurs in `provider_id.lower()` or (short-circuit)
`tool_name.lower()`. -/
def processToolNode (keyword_lower : String) (node : PyVal) :
    Except String (Option ToolEntry) := do
  let data ← pyGet node "data" (.dict [])
  let node_type ← pyGet data "type" (.str "")
  if !(pyEqStr node_type "tool") then
    pure Option.none
  else do
    let provider_id ← pyGet data "provider_id" (.str "")
    let tool_name ← pyGet data "tool_name" (.str "")
    let pidLower ← pyLower provider_id
    if pyInStr keyword_lower pidLower then
      mkToolEntry node data provider_id tool_name
    else do
      let tnLower ← pyLower tool_name
      if pyInStr keyword_lower tnLower then
        mkToolEntry node data provider_id tool_name
      else
        pure Option.none

/-- The tool-node loop of `search_workflows_by_plugin` over the node
sequence of one graph document, collecting matches in node order. -/
def matchToolNodes (keyword_lower : String) :
    List PyVal → Except String (List ToolEntry)
  | [] => pure []
  | node :: rest => do
    let r ← processToolNode keyword_lower node
    let rs ← matchToolNodes keyword_lower rest
    match r with
    | Option.some e => pure (e :: rs)
    | Option.none => pure rs

/-- Construction of the matched-LLM dict in `search_workflows_by_llm`. -/
def mkLlmEntry (node data model_name provider : PyVal) :
    Except String (Option LlmEntry) := do
  let node_id ← pyGet node "id" (.str "")
  let node_title ← pyGet data "title" (.str "")
  pure (Option.some ⟨node_id, node_title, model_name, provider⟩)

/-- The per-node body of the LLM-node loop of `search_workflows_by_llm`:
skip non-LLM nodes; resolve the model name from the nested `model`
mapping when `data.get("model")` is a dict, else coerce the top-level
`model` value with `str()`; resolve the provider from the nested mapping
when `data.get("model")` is a dict, else coerce the top-level `provider`
value with `str()`; include the node when the lowered keyword occurs in
the lowered model name or (short-circuit) the lowered provider. -/
def processLlmNode (keyword_lower : String) (node : PyVal) :
    Except String (Option LlmEntry) := do
  let data ← pyGet node "data" (.dict [])
  let node_type ← pyGet data "type" (.str "")
  if !(pyEqStr node_type "llm") then
    pure Option.none
  else do
    let mTest ← pyGet data "model" PyVal.none
    let model_name ←
      if isDict mTest then do
        let m ← pyGet data "model" (.dict [])
        pyGet m "name" (.str "")
      else do
        let v ← pyGet data "model" (.str "")
        pure (PyVal.str (pyStr v))
    let mTest2 ← pyGet data "model" PyVal.none
    let provider ←
      if isDict mTest2 then do
        let m ← pyGet data "model" (.dict [])
        pyGet m "provider" (.str "")
      else do
        let v ← pyGet data "provider" (.str "")
        pure (PyVal.str (pyStr v))
    let mnLower ← pyLower model_name
    if pyInStr keyword_lower mnLower then
      mkLlmEntry node data model_name provider
    else do
      let pvLower ← pyLower provider
      if pyInStr keyword_lower pvLower then
        mkLlmEntry node data model_name provider
      else
        pure Option.none

/-- The LLM-node loop of `search_workflows_by_llm` over the node sequence
of one graph document, collecting matches in node order. -/
def matchLlmNodes (keyword_lower : String) :
    List PyVal → Except String (List LlmEntry)
  | [] => pure []
  | node :: rest => do
    let r ← processLlmNode keyword_lower node
    let rs ← matchLlmNodes keyword_lower rest
    match r with
    | Option.some e => pure (e :: rs)
    | Option.none => pure rs

/-- One entry of the `results` list of `search_workflows_by_plugin`. -/
structure PluginWorkflowResult where
  app_id : String
  app_name : PyVal
  matching_tools : List ToolEntry
  updated_at : PyVal

/-- One entry of the `results` list of `search_workflows_by_llm`. -/
structure LlmWorkflowResult where
  app_id : String
  app_name : PyVal
  matching_llms : List LlmEntry
  updated_at : PyVal

/-- The per-row body of `search_workflows_by_plugin`: skip rows with a
falsy (null or empty) graph text, skip rows whose graph fails to
deserialize, run the tool-node loop on `graph.get("nodes", [])`, and
emit a result entry only when at least one node matched.  `parse` stands
for the external `json.loads`. -/
def processPluginRow (parse : String → Option PyVal) (keyword_lower : String)
    (row : WorkflowJoinRow) : Except String (Option PluginWorkflowResult) :=
  match row.graph with
  | Option.none => pure Option.none
  | Option.some graph_str =>
    if graph_str.data.isEmpty then pure Option.none
    else
      match parse graph_str with
      | Option.none => pure Option.none
      | Option.some graph => do
        let nodesVal ← pyGet graph "nodes" (.list [])
        let nodes ← pyIter nodesVal
        let matching_tools ← matchToolNodes keyword_lower nodes
        if matching_tools.isEmpty then
          pure Option.none
        else
          pure (Option.some
            { app_id := pyStr row.app_id
              app_name := if pyTruthy row.app_name then row.app_name else .str ""
              matching_tools := matching_tools
              updated_at :=
                if pyTruthy row.updated_at then .str (pyStr row.updated_at)
                else .none })

/-- The per-row body of `search_workflows_by_llm` (same row handling as
the plugin search, with the LLM-node loop). -/
def processLlmRow (parse : String → Option PyVal) (keyword_lower : String)
    (row : WorkflowJoinRow) : Except String (Option LlmWorkflowResult) :=
  match row.graph with
  | Option.none => pure Option.none
  | Option.some graph_str =>
    if graph_str.data.isEmpty then pure Option.none
    else
      match parse graph_str with
      | Option.none => pure Option.none
      | Option.some graph => do
        let nodesVal ← pyGet graph "nodes" (.list [])
        let nodes ← pyIter nodesVal
        let matching_llms ← matchLlmNodes keyword_lower nodes
        if matching_llms.isEmpty then
          pure Option.none
        else
          pure (Option.some
            { app_id := pyStr row.app_id
              app_name := if pyTruthy row.app_name then row.app_name else .str ""
              matching_llms := matching_llms
              updated_at :=
                if pyTruthy row.updated_at then .str (pyStr row.updated_at)
                else .none })

/-- The row loop of `search_workflows_by_plugin`, in row order. -/
def processPluginRows (parse : String → Option PyVal) (keyword_lower : String) :
    List WorkflowJoinRow → Except String (List PluginWorkflowResult)
  | [] => pure []
  | row :: rest => do
    let r ← processPluginRow parse keyword_lower row
    let rs ← processPluginRows parse keyword_lower rest
    match r with
    | Option.some e => pure (e :: rs)
    | Option.none => pure rs

/-- The row loop of `search_workflows_by_llm`, in row order. -/
def processLlmRows (parse : String → Option PyVal) (keyword_lower : String) :
    List WorkflowJoinRow → Except String (List LlmWorkflowResult)
  | [] => pure []
  | row :: rest => do
    let r ← processLlmRow parse keyword_lower row
    let rs ← processLlmRows parse keyword_lower rest
    match r with
    | Option.some e => pure (e :: rs)
    | Option.none => pure rs

/-- The response envelope of `search_workflows_by_plugin`. -/
structure PluginEnvelope where
  summary : String
  keyword : String
  results : List PluginWorkflowResult

/-- The response envelope of `search_workflows_by_llm`. -/
structure LlmEnvelope where
  summary : String
  keyword : String
  results : List LlmWorkflowResult

/-- `search_workflows_by_plugin(plugin_keyword)` from `server.py`, over
the rows returned by its workflow query (the database and `json.loads`
are external, so the fetched rows and the parser are inputs). -/
def search_workflows_by_plugin (parse : String → Option PyVal)
    (plugin_keyword : String) (rows : List WorkflowJoinRow) :
    Except String PluginEnvelope := do
  let results ← processPluginRows parse (strLower plugin_keyword) rows
  pure
    { summary := "找到 " ++ toString results.length
        ++ " 个 workflow 使用了匹配 \x27" ++ plugin_keyword ++ "\x27 的 plugin"
      keyword := plugin_keyword
      results := results }

/-- `search_workflows_by_llm(model_keyword)` from `server.py`, over the
rows returned by its workflow query. -/
def search_workflows_by_llm (parse : String → Option PyVal)
    (model_keyword : String) (rows : List WorkflowJoinRow) :
    Except String LlmEnvelope := do
  let results ← processLlmRows parse (strLower model_keyword) rows
  pure
    { summary := "找到 " ++ toString results.length
        ++ " 个 workflow 使用了匹配 \x27" ++ model_keyword ++ "\x27 的 LLM 模型"
      keyword := model_keyword
      results := results }

/-- Total defensive lookup used to state the matcher contracts
declaratively: `v.get(k, d)` on dicts, the default on anything else. -/
def dLookup (v : PyVal) (k : String) (d : PyVal) : PyVal :=
  match v with
  | .dict fields => dGetD fields k d
  | _ => d

/-- Lower-cased text of a value for the declarative matching predicate:
the lowered string for string values, empty for anything else. -/
def lowerOrEmpty (v : PyVal) : String :=
  match v with
  | .str s => strLower s
  | _ => ""

/-- Declarative form of the tool-node matching contract, written from the
spec's words: a node is included exactly when its `data.type` equals
`"tool"` and the lowered keyword is a substring of the lowered
`provider_id` or of the lowered `tool_name` (OR-ed); the emitted entry
carries the node id, the node's declared title, and the two identifying
fields, with empty-string defaults. -/
def claimToolExtract (keyword_lower : String) (node : PyVal) : Option ToolEntry :=
  let data := dLookup node "data" (.dict [])
  if pyEqStr (dLookup data "type" (.str "")) "tool"
      && (pyInStr keyword_lower (lowerOrEmpty (dLookup data "provider_id" (.str "")))
        || pyInStr keyword_lower (lowerOrEmpty (dLookup data "tool_name" (.str "")))) then
    Option.some
      ⟨dLookup node "id" (.str ""), dLookup data "title" (.str ""),
        dLookup data "provider_id" (.str ""), dLookup data "tool_name" (.str "")⟩
  else
    Option.none

/-- Declarative tool-node match list: the matching nodes of the document
in node order. -/
def claimToolMatchList (keyword_lower : String) (nodes : List PyVal) :
    List ToolEntry :=
  nodes.filterMap (claimToolExtract keyword_lower)

/-- Declarative resolved model name of an LLM node, written from the
spec's words: read `name` from the nested `model` mapping when the
`model` field is a mapping, else the top-level `model` value coerced to
a string. -/
def resolvedModelName (data : PyVal) : PyVal :=
  if isDict (dLookup data "model" PyVal.none) then
    dLookup (dLookup data "model" PyVal.none) "name" (.str "")
  else
    .str (pyStr (dLookup data "model" (.str "")))

/-- Declarative resolved provider of an LLM node: read `provider` from
the nested `model` mapping when the `model` field is a mapping, else the
top-level `provider` value coerced to a string. -/
def resolvedProvider (data : PyVal) : PyVal :=
  if isDict (dLookup data "model" PyVal.none) then
    dLookup (dLookup data "model" PyVal.none) "provider" (.str "")
  else
    .str (pyStr (dLookup data "provider" (.str "")))

/-- Declarative form of the LLM-node matching contract: a node is
included exactly when its `data.type` equals `"llm"` and the lowered
keyword is a substring of the lowered resolved model name or of the
lowered resolved provider. -/
def claimLlmExtract (keyword_lower : String) (node : PyVal) : Option LlmEntry :=
  let data := dLookup node "data" (.dict [])
  if pyEqStr (dLookup data "type" (.str "")) "llm"
      && (pyInStr keyword_lower (lowerOrEmpty (resolvedModelName data))
        || pyInStr keyword_lower (lowerOrEmpty (resolvedProvider data))) then
    Option.some
      ⟨dLookup node "id" (.str ""), dLookup data "title" (.str ""),
        resolvedModelName data, resolvedProvider data⟩
  else
    Option.none

/-- Declarative LLM-node match list, in node order. -/
def claimLlmMatchList (keyword_lower : String) (nodes : List PyVal) :
    List LlmEntry :=
  nodes.filterMap (claimLlmExtract keyword_lower)

/-- State of the module-level connection pool: the `_pool` global
(`Option` of a pool identity) together with a supply of fresh pool
identities standing for new `asyncpg.create_pool` results. -/
structure PoolState where
  pool : Option Nat
  nextId : Nat

/-- `get_pool(cfg)` from `server.py`: create the pool when `_pool is
None`, else return the existing one; yields the new state and the
returned pool identity. -/
def get_pool (s : PoolState) : PoolState × Nat :=
  match s.pool with
  | Option.some p => (s, p)
  | Option.none => (⟨Option.some s.nextId, s.nextId + 1⟩, s.nextId)

/-- `close_pool()` from `server.py`: when a pool exists, close it and set
`_pool = None`; otherwise do nothing. -/
def close_pool (s : PoolState) : PoolState :=
  match s.pool with
  | Option.some _ => ⟨Option.none, s.nextId⟩
  | Option.none => s

/-- An ASGI connection scope as consulted by the middleware: its type
string and its header pairs (header names and values, bytes modelled as
strings). -/
structure AsgiScope where
  type : String
  headers : List (String × String)

/-- Outcome of the middleware on one request: either the request is
forwarded unchanged to the wrapped application, or it is rejected with a
status code and a JSON error body before reaching any tool handler. -/
inductive AuthOutcome where
  | forwarded
  | rejected (status : Nat) (body : List (String × String))
  deriving DecidableEq

/-- Python `dict(pairs)[k]` lookup with default: the last binding of a
duplicated key wins, as in `dict(scope.get("headers", []))`. -/
def lastLookup (pairs : List (String × String)) (k : String) (d : String) : String :=
  match (pairs.filter (fun p => p.1 == k)).getLast? with
  | Option.some p => p.2
  | Option.none => d

/-- `APIKeyAuthMiddleware.__call__` from `server.py`, with `api_key` the
value of `MCP_API_KEY` read at construction: non-HTTP scopes pass
through; an empty configured key disables the check; otherwise the
`authorization` header must equal `"Bearer " + api_key` exactly, else
the request is rejected with a 401 JSON error body. -/
def APIKeyAuthMiddleware (api_key : String) (scope : AsgiScope) : AuthOutcome :=
  if !(scope.type == "http" || scope.type == "websocket") then
    .forwarded
  else if api_key == "" then
    .forwarded
  else
    let auth_value := lastLookup scope.headers "authorization" ""
    if auth_value != "Bearer " ++ api_key then
      .rejected 401 [("error", "Unauthorized"), ("message", "Invalid or missing API key")]
    else
      .forwarded

/-- Bind of a successful `Except` computation. -/
theorem ok_bind {α β : Type} (a : α) (f : α → Except String β) :
    (Except.ok a >>= f) = f a := rfl

/-- Bind of a failed `Except` computation propagates the error. -/
theorem error_bind {α β : Type} (e : String) (f : α → Except String β) :
    ((Except.error e : Except String α) >>= f) = Except.error e := rfl

/-- `pure` in the `Except String` monad is `Except.ok`. -/
theorem pure_eq_ok {α : Type} (a : α) :
    (pure a : Except String α) = Except.ok a := rfl

/-- Looking a key up with, as default, the result of looking the same key
up with another default collapses to the inner lookup. -/
theorem dGetD_idem (fields : List (String × PyVal)) (k : String) (d : PyVal) :
    dGetD fields k (dGetD fields k d) = dGetD fields k d := by
  unfold dGetD
  cases fields.find? (fun p => p.1 == k) <;> rfl

/-- Claim C10: in `search_workflows_by_plugin`, the node title resolution
`data.get("title", node.get("data", {}).get("title", ""))` is
extensionally equal to the simple lookup `data.get("title", "")` for
every node, where `data` is the value obtained from
`node.get("data", {})`: the fallback path re-reads the same data
mapping. -/
theorem claim_C10_title_equivalence (node data : PyVal)
    (hd : pyGet node "data" (.dict []) = Except.ok data) :
    titleResolution node data = titleSimple data := by
  unfold titleResolution titleSimple
  rw [hd, ok_bind]
  cases data with
  | dict fields =>
    simp only [pyGet, ok_bind, dGetD_idem]
  | none => rfl
  | str s => rfl
  | int n => rfl
  | bool b => rfl
  | list es => rfl

/-- Witness for C10 at a concrete node whose data mapping carries a
title. -/
theorem claim_C10_witness :
    titleResolution (.dict [("data", .dict [("title", .str "T")])])
        (.dict [("title", .str "T")]) =
      titleSimple (.dict [("title", .str "T")]) :=
  claim_C10_title_equivalence
    (.dict [("data", .dict [("title", .str "T")])])
    (.dict [("title", .str "T")]) rfl

/-- Claim C9: the connection pool follows
Uninitialized → Active → Closed: acquisition while a pool exists returns
that same pool and leaves the state unchanged; teardown resets the state
to Uninitialized; teardown in the Uninitialized state is a no-op; and a
subsequent acquisition after teardown initializes a fresh pool distinct
from the closed one (freshness uses the invariant that the closed pool's
identity was issued earlier than the supply counter). -/
theorem claim_C9_pool_lifecycle :
    (∀ s p, s.pool = Option.some p → get_pool s = (s, p)) ∧
    (∀ s, (close_pool s).pool = Option.none) ∧
    (∀ n, close_pool ⟨Option.none, n⟩ = ⟨Option.none, n⟩) ∧
    (∀ s p, s.pool = Option.some p → p < s.nextId →
      (get_pool (close_pool s)).1.pool = Option.some (get_pool (close_pool s)).2 ∧
      (get_pool (close_pool s)).2 ≠ p) := by
  refine ⟨?_, ?_, ?_, ?_⟩
  · intro s p hp
    unfold get_pool
    rw [hp]
  · intro s
    unfold close_pool
    cases hp : s.pool <;> simp [hp]
  · intro n
    rfl
  · intro s p hp hlt
    unfold close_pool get_pool
    rw [hp]
    exact ⟨rfl, fun h => absurd (h ▸ hlt) (lt_irrefl _)⟩

/-- Witness for C9 at a concrete active pool state. -/
theorem claim_C9_witness :
    get_pool ⟨Option.some 0, 1⟩ = (⟨Option.some 0, 1⟩, 0) ∧
    (get_pool (close_pool ⟨Option.some 0, 1⟩)).2 ≠ 0 :=
  ⟨claim_C9_pool_lifecycle.1 ⟨Option.some 0, 1⟩ 0 rfl,
    (claim_C9_pool_lifecycle.2.2.2 ⟨Option.some 0, 1⟩ 0 rfl (by decide)).2⟩

/-- Claim C8: with a non-empty configured secret, every HTTP-shaped
request whose `authorization` header differs from `"Bearer <secret>"` is
rejected with status 401 and a machine-readable error body, before the
wrapped application (and hence any tool handler) is reached; with the
secret unset (empty), the middleware forwards every request unchanged. -/
theorem claim_C8_auth_boundary (api_key : String) (scope : AsgiScope) :
    (api_key ≠ "" → scope.type = "http" →
      lastLookup scope.headers "authorization" "" ≠ "Bearer " ++ api_key →
      APIKeyAuthMiddleware api_key scope =
        .rejected 401
          [("error", "Unauthorized"), ("message", "Invalid or missing API key")]) ∧
    (api_key = "" → APIKeyAuthMiddleware api_key scope = .forwarded) := by
  constructor
  · intro hk ht hauth
    unfold APIKeyAuthMiddleware
    rw [ht]
    simp [hk, hauth]
  · intro hk
    unfold APIKeyAuthMiddleware
    subst hk
    simp

/-- Witness for C8: a concrete protected deployment rejects a request
with no `authorization` header, and an unprotected one forwards it. -/
theorem claim_C8_witness :
    APIKeyAuthMiddleware "secret" ⟨"http", []⟩ =
      .rejected 401
        [("error", "Unauthorized"), ("message", "Invalid or missing API key")] ∧
    APIKeyAuthMiddleware "" ⟨"http", []⟩ = .forwarded :=
  ⟨(claim_C8_auth_boundary "secret" ⟨"http", []⟩).1 (by decide) rfl (by decide),
    (claim_C8_auth_boundary "" ⟨"http", []⟩).2 rfl⟩

/-- Claim C7: for every keyword string passed to any of the three tools,
the returned envelope's `keyword` field equals that string exactly, with
no trimming or case change. -/
theorem claim_C7_keyword_echo (keyword : String)
    (pmcTbl : List ProviderModelCredentialsRow)
    (tbpTbl : List ToolBuiltinProvidersRow) (wfTbl : List WorkflowsEnvRow)
    (parse : String → Option PyVal) (rows1 rows2 : List WorkflowJoinRow)
    (e1 : PluginEnvelope) (e2 : LlmEnvelope)
    (h1 : search_workflows_by_plugin parse keyword rows1 = Except.ok e1)
    (h2 : search_workflows_by_llm parse keyword rows2 = Except.ok e2) :
    (search_dify_credentials keyword pmcTbl tbpTbl wfTbl).keyword = keyword ∧
    e1.keyword = keyword ∧ e2.keyword = keyword := by
  refine ⟨rfl, ?_, ?_⟩
  · unfold search_workflows_by_plugin at h1
    cases hres : processPluginRows parse (strLower keyword) rows1 with
    | error e => rw [hres, error_bind] at h1; exact absurd h1 (by simp)
    | ok rs =>
      rw [hres, ok_bind, pure_eq_ok] at h1
      injection h1 with h
      rw [← h]
  · unfold search_workflows_by_llm at h2
    cases hres : processLlmRows parse (strLower keyword) rows2 with
    | error e => rw [hres, error_bind] at h2; exact absurd h2 (by simp)
    | ok rs =>
      rw [hres, ok_bind, pure_eq_ok] at h2
      injection h2 with h
      rw [← h]

/-- Witness for C7 at a concrete keyword and empty table/row inputs. -/
theorem claim_C7_witness :
    (search_dify_credentials "K w" [] [] []).keyword = "K w" ∧
    ({ summary := "找到 0 个 workflow 使用了匹配 \x27K w\x27 的 plugin",
       keyword := "K w", results := [] } : PluginEnvelope).keyword = "K w" ∧
    ({ summary := "找到 0 个 workflow 使用了匹配 \x27K w\x27 的 LLM 模型",
       keyword := "K w", results := [] } : LlmEnvelope).keyword = "K w" :=
  claim_C7_keyword_echo "K w" [] [] [] (fun _ => Option.none) [] []
    _ _ rfl rfl

/-- Claim C6: a workflow row whose graph field is null (or empty, hence
falsy) or fails to deserialize is silently skipped by both
`search_workflows_by_plugin` and `search_workflows_by_llm`, producing no
error; and any emitted result row carries a non-empty match list, i.e.
rows with zero matching nodes are dropped from the output. -/
theorem claim_C6_row_skipping (parse : String → Option PyVal) (kw : String)
    (row : WorkflowJoinRow) :
    (row.graph = Option.none →
      processPluginRow parse kw row = Except.ok Option.none ∧
      processLlmRow parse kw row = Except.ok Option.none) ∧
    (∀ s, row.graph = Option.some s → s.data.isEmpty = false →
      parse s = Option.none →
      processPluginRow parse kw row = Except.ok Option.none ∧
      processLlmRow parse kw row = Except.ok Option.none) ∧
    (∀ s, row.graph = Option.some s → s.data.isEmpty = true →
      processPluginRow parse kw row = Except.ok Option.none ∧
      processLlmRow parse kw row = Except.ok Option.none) ∧
    (∀ r, processPluginRow parse kw row = Except.ok (Option.some r) →
      r.matching_tools ≠ []) ∧
    (∀ r, processLlmRow parse kw row = Except.ok (Option.some r) →
      r.matching_llms ≠ []) := by
  refine ⟨?_, ?_, ?_, ?_, ?_⟩
  · intro hg
    unfold processPluginRow processLlmRow
    rw [hg]
    exact ⟨rfl, rfl⟩
  · intro s hg hne hp
    unfold processPluginRow processLlmRow
    rw [hg]
    simp [hne, hp, pure_eq_ok]
  · intro s hg he
    unfold processPluginRow processLlmRow
    rw [hg]
    simp [he, pure_eq_ok]
  · intro r h
    unfold processPluginRow at h
    split at h
    · exact Option.noConfusion (Except.ok.inj h)
    · split at h
      · exact Option.noConfusion (Except.ok.inj h)
      · split at h
        · exact Option.noConfusion (Except.ok.inj h)
        · rename_i graph hp
          cases hnv : pyGet graph "nodes" (.list []) with
          | error e => rw [hnv, error_bind] at h; exact Except.noConfusion h
          | ok nodesVal =>
            rw [hnv, ok_bind] at h
            cases hit : pyIter nodesVal with
            | error e => rw [hit, error_bind] at h; exact Except.noConfusion h
            | ok nodes =>
              rw [hit, ok_bind] at h
              cases hm : matchToolNodes kw nodes with
              | error e => rw [hm, error_bind] at h; exact Except.noConfusion h
              | ok mts =>
                rw [hm, ok_bind] at h
                split at h
                · exact Option.noConfusion (Except.ok.inj h)
                · rename_i hemp
                  rw [pure_eq_ok] at h
                  have h2 := Option.some.inj (Except.ok.inj h)
                  rw [← h2]
                  intro hnil
                  have hnil2 : mts = [] := hnil
                  exact hemp (by rw [hnil2]; rfl)
  · intro r h
    unfold processLlmRow at h
    split at h
    · exact Option.noConfusion (Except.ok.inj h)
    · split at h
      · exact Option.noConfusion (Except.ok.inj h)
      · split at h
        · exact Option.noConfusion (Except.ok.inj h)
        · rename_i graph hp
          cases hnv : pyGet graph "nodes" (.list []) with
          | error e => rw [hnv, error_bind] at h; exact Except.noConfusion h
          | ok nodesVal =>
            rw [hnv, ok_bind] at h
            cases hit : pyIter nodesVal with
            | error e => rw [hit, error_bind] at h; exact Except.noConfusion h
            | ok nodes =>
              rw [hit, ok_bind] at h
              cases hm : matchLlmNodes kw nodes with
              | error e => rw [hm, error_bind] at h; exact Except.noConfusion h
              | ok mls =>
                rw [hm, ok_bind] at h
                split at h
                · exact Option.noConfusion (Except.ok.inj h)
                · rename_i hemp
                  rw [pure_eq_ok] at h
                  have h2 := Option.some.inj (Except.ok.inj h)
                  rw [← h2]
                  intro hnil
                  have hnil2 : mls = [] := hnil
                  exact hemp (by rw [hnil2]; rfl)

/-- Witness for C6: a null graph and an unparseable graph are skipped
without error. -/
theorem claim_C6_witness :
    processPluginRow (fun _ => Option.none) "k"
        { app_id := .int 1, app_name := .none, graph := Option.none,
          created_at := .none, updated_at := .none } =
      Except.ok Option.none ∧
    processLlmRow (fun _ => Option.none) "k"
        { app_id := .int 1, app_name := .none, graph := Option.some "bad json",
          created_at := .none, updated_at := .none } =
      Except.ok Option.none :=
  ⟨(claim_C6_row_skipping (fun _ => Option.none) "k"
      { app_id := .int 1, app_name := .none, graph := Option.none,
        created_at := .none, updated_at := .none }).1 rfl |>.1,
    ((claim_C6_row_skipping (fun _ => Option.none) "k"
      { app_id := .int 1, app_name := .none, graph := Option.some "bad json",
        created_at := .none, updated_at := .none }).2.1 "bad json" rfl rfl
      rfl).2⟩

/-- Counterexample to claim C1 as stated: a tool node whose identifying
field `provider_id` is present but of unexpected shape (an integer
instead of a string) does not degrade to an empty string — the call to
`search_workflows_by_plugin` raises (`provider_id.lower()` on an `int`),
surfacing an error instead of a result envelope. -/
theorem claim_C1_counterexample :
    search_workflows_by_plugin
        (fun _ => Option.some (.dict [("nodes", .list
          [.dict [("data", .dict
            [("type", .str "tool"), ("provider_id", .int 123)])]])]))
        "x"
        [{ app_id := .int 7, app_name := .none, graph := Option.some "g",
           created_at := .none, updated_at := .none }] =
      Except.error "AttributeError: object has no attribute lower" := by
  rfl

/-- Amendment of claim C1 that the code satisfies: for a node of the
target kind whose identifying fields are absent, extraction degrades to
the empty string and no error is raised — for a tool node with no
`provider_id` and no `tool_name` binding, and for an LLM node with no
`model` and no `provider` binding, the per-node processing returns
normally, with empty strings in every extracted field (the node matches
exactly when the keyword is empty).  Fields that are present but of
non-string shape are not covered: they can raise, as the counterexample
shows. -/
theorem claim_C1_amended :
    (∀ (kw : String) (nf df : List (String × PyVal)),
      dGetD nf "data" (.dict []) = .dict df →
      dGetD df "type" (.str "") = .str "tool" →
      df.find? (fun p => p.1 == "provider_id") = Option.none →
      df.find? (fun p => p.1 == "tool_name") = Option.none →
      processToolNode kw (.dict nf) =
        Except.ok (if pyInStr kw "" then
          Option.some ⟨dGetD nf "id" (.str ""), dGetD df "title" (.str ""),
            .str "", .str ""⟩
        else Option.none)) ∧
    (∀ (kw : String) (nf df : List (String × PyVal)),
      dGetD nf "data" (.dict []) = .dict df →
      dGetD df "type" (.str "") = .str "llm" →
      df.find? (fun p => p.1 == "model") = Option.none →
      df.find? (fun p => p.1 == "provider") = Option.none →
      processLlmNode kw (.dict nf) =
        Except.ok (if pyInStr kw "" then
          Option.some ⟨dGetD nf "id" (.str ""), dGetD df "title" (.str ""),
            .str "", .str ""⟩
        else Option.none)) := by
  constructor
  · intro kw nf df hdata htype hpid htn
    have hpid' : dGetD df "provider_id" (.str "") = .str "" := by
      unfold dGetD; rw [hpid]
    have htn' : dGetD df "tool_name" (.str "") = .str "" := by
      unfold dGetD; rw [htn]
    unfold processToolNode
    simp only [pyGet, ok_bind, hdata, htype, hpid', htn', pyEqStr, pyLower,
      beq_self_eq_true, Bool.not_true, Bool.false_eq_true, if_false]
    have hl : strLower "" = "" := rfl
    rw [hl]
    by_cases hin : pyInStr kw ""
    · simp only [hin, if_true]
      unfold mkToolEntry titleResolution
      simp only [pyGet, ok_bind, hdata, dGetD_idem, pure_eq_ok]
    · simp only [hin, if_false, Bool.false_eq_true, pure_eq_ok]
  · intro kw nf df hdata htype hmodel hprov
    have hm1 : dGetD df "model" PyVal.none = PyVal.none := by
      unfold dGetD; rw [hmodel]
    have hm2 : dGetD df "model" (.str "") = .str "" := by
      unfold dGetD; rw [hmodel]
    have hp2 : dGetD df "provider" (.str "") = .str "" := by
      unfold dGetD; rw [hprov]
    unfold processLlmNode
    simp only [pyGet, ok_bind, pure_eq_ok, hdata, htype, hm1, hm2, hp2,
      pyEqStr, pyLower, isDict, beq_self_eq_true, Bool.not_true,
      Bool.false_eq_true, if_false, pyStr]
    have hl : strLower "" = "" := rfl
    rw [hl]
    by_cases hin : pyInStr kw ""
    · simp only [hin, if_true]
      unfold mkLlmEntry
      simp only [pyGet, ok_bind, pure_eq_ok]
    · simp only [hin, if_false, Bool.false_eq_true, pure_eq_ok]

/-- Witness for the amended C1: concrete nodes with all identifying
fields missing are processed without error; with a non-empty keyword the
tool node simply does not match, and with the empty keyword the LLM node
matches with all-empty extracted fields. -/
theorem claim_C1_witness :
    processToolNode "x" (.dict [("data", .dict [("type", .str "tool")])]) =
      Except.ok Option.none ∧
    processLlmNode "" (.dict [("data", .dict [("type", .str "llm")])]) =
      Except.ok (Option.some ⟨.str "", .str "", .str "", .str ""⟩) := by
  constructor
  · have h := claim_C1_amended.1 "x" [("data", .dict [("type", .str "tool")])]
      [("type", .str "tool")] rfl rfl rfl rfl
    rw [h]
    rfl
  · have h := claim_C1_amended.2 "" [("data", .dict [("type", .str "llm")])]
      [("type", .str "llm")] rfl rfl rfl rfl
    rw [h]
    rfl

/-- Assigning a key that is not yet present appends the binding. -/
theorem pyDictSet_append (fields : List (String × PyVal)) (k : String) (v : PyVal)
    (h : fields.any (fun p => p.1 == k) = false) :
    pyDictSet fields k v = fields ++ [(k, v)] := by
  unfold pyDictSet
  rw [h]
  simp

/-- The column fold of `formatItem`, generalized over an accumulator
whose keys are disjoint from the remaining (duplicate-free) columns:
it appends one binding per column, in column order. -/
theorem formatItem_foldl (row : DbRecord) :
    ∀ (cols : List String) (acc : List (String × PyVal)), cols.Nodup →
      (∀ c ∈ cols, acc.any (fun p => p.1 == c) = false) →
      cols.foldl (fun item col => pyDictSet item col (formatVal (row col))) acc
        = acc ++ cols.map (fun col => (col, formatVal (row col))) := by
  intro cols
  induction cols with
  | nil => intro acc _ _; simp
  | cons c cs ih =>
    intro acc hnd hdisj
    rw [List.foldl_cons,
      pyDictSet_append acc c (formatVal (row c)) (hdisj c (by simp)),
      ih (acc ++ [(c, formatVal (row c))]) (List.nodup_cons.mp hnd).2 ?_]
    · simp
    · intro c' hc'
      rw [List.any_append]
      have h1 : acc.any (fun p => p.1 == c') = false :=
        hdisj c' (List.mem_cons_of_mem c hc')
      have h2 : (c == c') = false := by
        have hne : c ≠ c' := by
          intro hcc
          exact (List.nodup_cons.mp hnd).1 (hcc ▸ hc')
        exact beq_eq_false_iff_ne.mpr hne
      simp [h1, h2]

/-- Claim C3: the Row Normalizer produces one dictionary per row in row
order, each with exactly the projected keys in projection order, where a
null source value maps to null, a mapping or sequence value passes
through unchanged, and every other non-null value is converted to its
string representation.  (The projection is taken duplicate-free, as in
every call site.) -/
theorem claim_C3_row_normalizer (rows : List DbRecord) (columns : List String)
    (h : columns.Nodup) :
    _format_rows rows columns
      = rows.map (fun row => columns.map (fun col => (col, formatVal (row col)))) ∧
    formatVal PyVal.none = PyVal.none ∧
    (∀ fs, formatVal (.dict fs) = .dict fs) ∧
    (∀ es, formatVal (.list es) = .list es) ∧
    (∀ v, v ≠ PyVal.none → isDict v = false → isList v = false →
      formatVal v = .str (pyStr v)) := by
  refine ⟨?_, rfl, fun fs => rfl, fun es => rfl, ?_⟩
  · unfold _format_rows
    have hitem : ∀ row : DbRecord, formatItem row columns
        = columns.map (fun col => (col, formatVal (row col))) := by
      intro row
      have := formatItem_foldl row columns [] h (by intro c _; rfl)
      simpa [formatItem] using this
    simp only [hitem]
  · intro v hv hd hl
    cases v with
    | none => exact absurd rfl hv
    | str s => rfl
    | int n => rfl
    | bool b => rfl
    | list es => simp [isList] at hl
    | dict fs => simp [isDict] at hd

/-- Witness for C3 at a concrete record and two-column projection. -/
theorem claim_C3_witness :
    _format_rows
        [(fun c => if c = "a" then PyVal.int 5 else PyVal.none : DbRecord)]
        ["a", "b"]
      = [[("a", PyVal.str "5"), ("b", PyVal.none)]] := by
  rw [(claim_C3_row_normalizer
    [(fun c => if c = "a" then PyVal.int 5 else PyVal.none : DbRecord)]
    ["a", "b"] (by decide)).1]
  rfl

/-- When the per-node tool processing returns normally, its result agrees
with the declarative matching contract `claimToolExtract`. -/
theorem processToolNode_ok {kw : String} {node : PyVal} {r : Option ToolEntry}
    (h : processToolNode kw node = Except.ok r) :
    r = claimToolExtract kw node := by
  cases node with
  | none => simp [processToolNode, pyGet, error_bind] at h
  | str s => simp [processToolNode, pyGet, error_bind] at h
  | int n => simp [processToolNode, pyGet, error_bind] at h
  | bool b => simp [processToolNode, pyGet, error_bind] at h
  | list es => simp [processToolNode, pyGet, error_bind] at h
  | dict nf =>
    unfold processToolNode at h
    simp only [pyGet, ok_bind] at h
    cases hdata : dGetD nf "data" (.dict []) with
    | none => rw [hdata] at h; simp [error_bind] at h
    | str s => rw [hdata] at h; simp [error_bind] at h
    | int n => rw [hdata] at h; simp [error_bind] at h
    | bool b => rw [hdata] at h; simp [error_bind] at h
    | list es => rw [hdata] at h; simp [error_bind] at h
    | dict df =>
      rw [hdata] at h
      simp only [ok_bind] at h
      cases htype : pyEqStr (dGetD df "type" (.str "")) "tool" with
      | false =>
        rw [htype] at h
        simp only [Bool.not_false, if_true, pure_eq_ok, Except.ok.injEq] at h
        simp [claimToolExtract, dLookup, hdata, htype, ← h]
      | true =>
        rw [htype] at h
        simp only [Bool.not_true, Bool.false_eq_true, if_false, ok_bind] at h
        cases hpid : dGetD df "provider_id" (.str "") with
        | none => rw [hpid] at h; simp [pyLower, error_bind] at h
        | int n => rw [hpid] at h; simp [pyLower, error_bind] at h
        | bool b => rw [hpid] at h; simp [pyLower, error_bind] at h
        | list es => rw [hpid] at h; simp [pyLower, error_bind] at h
        | dict fs2 => rw [hpid] at h; simp [pyLower, error_bind] at h
        | str ps =>
          rw [hpid] at h
          simp only [pyLower, ok_bind] at h
          cases hm1 : pyInStr kw (strLower ps) with
          | true =>
            rw [hm1] at h
            simp only [if_true] at h
            unfold mkToolEntry titleResolution at h
            simp only [pyGet, ok_bind, hdata, dGetD_idem, pure_eq_ok,
              Except.ok.injEq] at h
            simp [claimToolExtract, dLookup, hdata, htype, hpid,
              lowerOrEmpty, hm1, ← h]
          | false =>
            rw [hm1] at h
            simp only [Bool.false_eq_true, if_false, ok_bind] at h
            cases htn : dGetD df "tool_name" (.str "") with
            | none => rw [htn] at h; simp [pyLower, error_bind] at h
            | int n => rw [htn] at h; simp [pyLower, error_bind] at h
            | bool b => rw [htn] at h; simp [pyLower, error_bind] at h
            | list es => rw [htn] at h; simp [pyLower, error_bind] at h
            | dict fs2 => rw [htn] at h; simp [pyLower, error_bind] at h
            | str ts =>
              rw [htn] at h
              simp only [pyLower, ok_bind] at h
              cases hm2 : pyInStr kw (strLower ts) with
              | true =>
                rw [hm2] at h
                simp only [if_true] at h
                unfold mkToolEntry titleResolution at h
                simp only [pyGet, ok_bind, hdata, dGetD_idem, pure_eq_ok,
                  Except.ok.injEq] at h
                simp [claimToolExtract, dLookup, hdata, htype, hpid, htn,
                  lowerOrEmpty, hm1, hm2, ← h]
              | false =>
                rw [hm2] at h
                simp only [Bool.false_eq_true, if_false, pure_eq_ok,
                  Except.ok.injEq] at h
                simp [claimToolExtract, dLookup, hdata, htype, hpid, htn,
                  lowerOrEmpty, hm1, hm2, ← h]

/-- When the per-node LLM processing returns normally, its result agrees
with the declarative matching contract `claimLlmExtract`. -/
theorem processLlmNode_ok {kw : String} {node : PyVal} {r : Option LlmEntry}
    (h : processLlmNode kw node = Except.ok r) :
    r = claimLlmExtract kw node := by
  cases node with
  | none => simp [processLlmNode, pyGet, error_bind] at h
  | str s => simp [processLlmNode, pyGet, error_bind] at h
  | int n => simp [processLlmNode, pyGet, error_bind] at h
  | bool b => simp [processLlmNode, pyGet, error_bind] at h
  | list es => simp [processLlmNode, pyGet, error_bind] at h
  | dict nf =>
    unfold processLlmNode at h
    simp only [pyGet, ok_bind] at h
    cases hdata : dGetD nf "data" (.dict []) with
    | none => rw [hdata] at h; simp [error_bind] at h
    | str s => rw [hdata] at h; simp [error_bind] at h
    | int n => rw [hdata] at h; simp [error_bind] at h
    | bool b => rw [hdata] at h; simp [error_bind] at h
    | list es => rw [hdata] at h; simp [error_bind] at h
    | dict df =>
      rw [hdata] at h
      simp only [ok_bind] at h
      cases htype : pyEqStr (dGetD df "type" (.str "")) "llm" with
      | false =>
        rw [htype] at h
        simp only [Bool.not_false, if_true, pure_eq_ok, Except.ok.injEq] at h
        simp [claimLlmExtract, dLookup, hdata, htype, ← h]
      | true =>
        rw [htype] at h
        simp only [Bool.not_true, Bool.false_eq_true, if_false, ok_bind] at h
        cases hf : List.find? (fun p => p.1 == "model") df with
        | none =>
          have hmv : ∀ d, dGetD df "model" d = d := by
            intro d; unfold dGetD; rw [hf]
          simp only [hmv, isDict, Bool.false_eq_true, if_false, pyGet,
            ok_bind, pure_eq_ok, pyLower, pyStr] at h
          split at h
          · rename_i hmm1
            unfold mkLlmEntry at h
            simp only [pyGet, ok_bind, pure_eq_ok, Except.ok.injEq] at h
            simp [claimLlmExtract, resolvedModelName, resolvedProvider,
              dLookup, lowerOrEmpty, pyStr, isDict, hdata, htype, hmv,
              hmm1, ← h]
          · rename_i hmm1
            split at h
            · rename_i hmm2
              unfold mkLlmEntry at h
              simp only [pyGet, ok_bind, pure_eq_ok, Except.ok.injEq] at h
              simp [claimLlmExtract, resolvedModelName, resolvedProvider,
                dLookup, lowerOrEmpty, pyStr, isDict, hdata, htype, hmv,
                hmm1, hmm2, ← h]
            · rename_i hmm2
              simp only [pure_eq_ok, Except.ok.injEq] at h
              simp [claimLlmExtract, resolvedModelName, resolvedProvider,
                dLookup, lowerOrEmpty, pyStr, isDict, hdata, htype, hmv,
                hmm1, hmm2, ← h]
        | some p =>
          obtain ⟨pk, pv⟩ := p
          have hmv : ∀ d, dGetD df "model" d = pv := by
            intro d; unfold dGetD; rw [hf]
          cases pv with
          | dict m =>
            simp only [hmv, isDict, if_true, pyGet, ok_bind] at h
            cases hname : dGetD m "name" (.str "") with
            | none => rw [hname] at h; simp [pyLower, error_bind] at h
            | int n => rw [hname] at h; simp [pyLower, error_bind] at h
            | bool b => rw [hname] at h; simp [pyLower, error_bind] at h
            | list es => rw [hname] at h; simp [pyLower, error_bind] at h
            | dict fs2 => rw [hname] at h; simp [pyLower, error_bind] at h
            | str ms =>
              rw [hname] at h
              simp only [pyLower, ok_bind] at h
              cases hmm1 : pyInStr kw (strLower ms) with
              | true =>
                rw [hmm1] at h
                simp only [if_true] at h
                unfold mkLlmEntry at h
                simp only [pyGet, ok_bind, pure_eq_ok, Except.ok.injEq] at h
                simp [claimLlmExtract, resolvedModelName, resolvedProvider,
                  dLookup, lowerOrEmpty, isDict, hdata, htype, hmv, hname,
                  hmm1, ← h]
              | false =>
                rw [hmm1] at h
                simp only [Bool.false_eq_true, if_false, ok_bind] at h
                cases hprov : dGetD m "provider" (.str "") with
                | none => rw [hprov] at h; simp [pyLower, error_bind] at h
                | int n => rw [hprov] at h; simp [pyLower, error_bind] at h
                | bool b => rw [hprov] at h; simp [pyLower, error_bind] at h
                | list es => rw [hprov] at h; simp [pyLower, error_bind] at h
                | dict fs2 => rw [hprov] at h; simp [pyLower, error_bind] at h
                | str qs =>
                  rw [hprov] at h
                  simp only [pyLower, ok_bind] at h
                  cases hmm2 : pyInStr kw (strLower qs) with
                  | true =>
                    rw [hmm2] at h
                    simp only [if_true] at h
                    unfold mkLlmEntry at h
                    simp only [pyGet, ok_bind, pure_eq_ok,
                      Except.ok.injEq] at h
                    simp [claimLlmExtract, resolvedModelName,
                      resolvedProvider, dLookup, lowerOrEmpty, isDict,
                      hdata, htype, hmv, hname, hprov, hmm1, hmm2, ← h]
                  | false =>
                    rw [hmm2] at h
                    simp only [Bool.false_eq_true, if_false, pure_eq_ok,
                      Except.ok.injEq] at h
                    simp [claimLlmExtract, resolvedModelName,
                      resolvedProvider, dLookup, lowerOrEmpty, isDict,
                      hdata, htype, hmv, hname, hprov, hmm1, hmm2, ← h]
          | none =>
            simp only [hmv, isDict, Bool.false_eq_true, if_false, pyGet,
              ok_bind, pure_eq_ok, pyLower, pyStr] at h
            split at h
            · rename_i hmm1
              unfold mkLlmEntry at h
              simp only [pyGet, ok_bind, pure_eq_ok, Except.ok.injEq] at h
              simp [claimLlmExtract, resolvedModelName, resolvedProvider,
                dLookup, lowerOrEmpty, pyStr, isDict, hdata, htype, hmv,
                hmm1, ← h]
            · rename_i hmm1
              split at h
              · rename_i hmm2
                unfold mkLlmEntry at h
                simp only [pyGet, ok_bind, pure_eq_ok, Except.ok.injEq] at h
                simp [claimLlmExtract, resolvedModelName, resolvedProvider,
                  dLookup, lowerOrEmpty, pyStr, isDict, hdata, htype, hmv,
                  hmm1, hmm2, ← h]
              · rename_i hmm2
                simp only [pure_eq_ok, Except.ok.injEq] at h
                simp [claimLlmExtract, resolvedModelName, resolvedProvider,
                  dLookup, lowerOrEmpty, pyStr, isDict, hdata, htype, hmv,
                  hmm1, hmm2, ← h]
          | str s =>
            simp only [hmv, isDict, Bool.false_eq_true, if_false, pyGet,
              ok_bind, pure_eq_ok, pyLower, pyStr] at h
            split at h
            · rename_i hmm1
              unfold mkLlmEntry at h
              simp only [pyGet, ok_bind, pure_eq_ok, Except.ok.injEq] at h
              simp [claimLlmExtract, resolvedModelName, resolvedProvider,
                dLookup, lowerOrEmpty, pyStr, isDict, hdata, htype, hmv,
                hmm1, ← h]
            · rename_i hmm1
              split at h
              · rename_i hmm2
                unfold mkLlmEntry at h
                simp only [pyGet, ok_bind, pure_eq_ok, Except.ok.injEq] at h
                simp [claimLlmExtract, resolvedModelName, resolvedProvider,
                  dLookup, lowerOrEmpty, pyStr, isDict, hdata, htype, hmv,
                  hmm1, hmm2, ← h]
              · rename_i hmm2
                simp only [pure_eq_ok, Except.ok.injEq] at h
                simp [claimLlmExtract, resolvedModelName, resolvedProvider,
                  dLookup, lowerOrEmpty, pyStr, isDict, hdata, htype, hmv,
                  hmm1, hmm2, ← h]
          | int n =>
            simp only [hmv, isDict, Bool.false_eq_true, if_false, pyGet,
              ok_bind, pure_eq_ok, pyLower, pyStr] at h
            split at h
            · rename_i hmm1
              unfold mkLlmEntry at h
              simp only [pyGet, ok_bind, pure_eq_ok, Except.ok.injEq] at h
              simp [claimLlmExtract, resolvedModelName, resolvedProvider,
                dLookup, lowerOrEmpty, pyStr, isDict, hdata, htype, hmv,
                hmm1, ← h]
            · rename_i hmm1
              split at h
              · rename_i hmm2
                unfold mkLlmEntry at h
                simp only [pyGet, ok_bind, pure_eq_ok, Except.ok.injEq] at h
                simp [claimLlmExtract, resolvedModelName, resolvedProvider,
                  dLookup, lowerOrEmpty, pyStr, isDict, hdata, htype, hmv,
                  hmm1, hmm2, ← h]
              · rename_i hmm2
                simp only [pure_eq_ok, Except.ok.injEq] at h
                simp [claimLlmExtract, resolvedModelName, resolvedProvider,
                  dLookup, lowerOrEmpty, pyStr, isDict, hdata, htype, hmv,
                  hmm1, hmm2, ← h]
          | bool b =>
            simp only [hmv, isDict, Bool.false_eq_true, if_false, pyGet,
              ok_bind, pure_eq_ok, pyLower, pyStr] at h
            split at h
            · rename_i hmm1
              unfold mkLlmEntry at h
              simp only [pyGet, ok_bind, pure_eq_ok, Except.ok.injEq] at h
              simp [claimLlmExtract, resolvedModelName, resolvedProvider,
                dLookup, lowerOrEmpty, pyStr, isDict, hdata, htype, hmv,
                hmm1, ← h]
            · rename_i hmm1
              split at h
              · rename_i hmm2
                unfold mkLlmEntry at h
                simp only [pyGet, ok_bind, pure_eq_ok, Except.ok.injEq] at h
                simp [claimLlmExtract, resolvedModelName, resolvedProvider,
                  dLookup, lowerOrEmpty, pyStr, isDict, hdata, htype, hmv,
                  hmm1, hmm2, ← h]
              · rename_i hmm2
                simp only [pure_eq_ok, Except.ok.injEq] at h
                simp [claimLlmExtract, resolvedModelName, resolvedProvider,
                  dLookup, lowerOrEmpty, pyStr, isDict, hdata, htype, hmv,
                  hmm1, hmm2, ← h]
          | list es =>
            simp only [hmv, isDict, Bool.false_eq_true, if_false, pyGet,
              ok_bind, pure_eq_ok, pyLower, pyStr] at h
            split at h
            · rename_i hmm1
              unfold mkLlmEntry at h
              simp only [pyGet, ok_bind, pure_eq_ok, Except.ok.injEq] at h
              simp [claimLlmExtract, resolvedModelName, resolvedProvider,
                dLookup, lowerOrEmpty, pyStr, isDict, hdata, htype, hmv,
                hmm1, ← h]
            · rename_i hmm1
              split at h
              · rename_i hmm2
                unfold mkLlmEntry at h
                simp only [pyGet, ok_bind, pure_eq_ok, Except.ok.injEq] at h
                simp [claimLlmExtract, resolvedModelName, resolvedProvider,
                  dLookup, lowerOrEmpty, pyStr, isDict, hdata, htype, hmv,
                  hmm1, hmm2, ← h]
              · rename_i hmm2
                simp only [pure_eq_ok, Except.ok.injEq] at h
                simp [claimLlmExtract, resolvedModelName, resolvedProvider,
                  dLookup, lowerOrEmpty, pyStr, isDict, hdata, htype, hmv,
                  hmm1, hmm2, ← h]

/-- When the tool-node loop returns normally, its output is the
declarative match list. -/
theorem matchToolNodes_ok {kw : String} {nodes : List PyVal}
    {out : List ToolEntry} (h : matchToolNodes kw nodes = Except.ok out) :
    out = claimToolMatchList kw nodes := by
  induction nodes generalizing out with
  | nil =>
    simp only [matchToolNodes, pure_eq_ok, Except.ok.injEq] at h
    simp [claimToolMatchList, ← h]
  | cons n ns ih =>
    unfold matchToolNodes at h
    cases h1 : processToolNode kw n with
    | error e => rw [h1, error_bind] at h; exact Except.noConfusion h
    | ok r =>
      rw [h1, ok_bind] at h
      cases h2 : matchToolNodes kw ns with
      | error e => rw [h2, error_bind] at h; exact Except.noConfusion h
      | ok rs =>
        rw [h2, ok_bind] at h
        have hr := processToolNode_ok h1
        have hrs := ih h2
        cases r with
        | some e =>
          simp only [pure_eq_ok, Except.ok.injEq] at h
          rw [← h]
          simp only [claimToolMatchList, List.filterMap_cons, ← hr]
          rw [hrs]
          rfl
        | none =>
          simp only [pure_eq_ok, Except.ok.injEq] at h
          rw [← h]
          simp only [claimToolMatchList, List.filterMap_cons, ← hr]
          rw [hrs]
          rfl

/-- When the LLM-node loop returns normally, its output is the
declarative match list. -/
theorem matchLlmNodes_ok {kw : String} {nodes : List PyVal}
    {out : List LlmEntry} (h : matchLlmNodes kw nodes = Except.ok out) :
    out = claimLlmMatchList kw nodes := by
  induction nodes generalizing out with
  | nil =>
    simp only [matchLlmNodes, pure_eq_ok, Except.ok.injEq] at h
    simp [claimLlmMatchList, ← h]
  | cons n ns ih =>
    unfold matchLlmNodes at h
    cases h1 : processLlmNode kw n with
    | error e => rw [h1, error_bind] at h; exact Except.noConfusion h
    | ok r =>
      rw [h1, ok_bind] at h
      cases h2 : matchLlmNodes kw ns with
      | error e => rw [h2, error_bind] at h; exact Except.noConfusion h
      | ok rs =>
        rw [h2, ok_bind] at h
        have hr := processLlmNode_ok h1
        have hrs := ih h2
        cases r with
        | some e =>
          simp only [pure_eq_ok, Except.ok.injEq] at h
          rw [← h]
          simp only [claimLlmMatchList, List.filterMap_cons, ← hr]
          rw [hrs]
          rfl
        | none =>
          simp only [pure_eq_ok, Except.ok.injEq] at h
          rw [← h]
          simp only [claimLlmMatchList, List.filterMap_cons, ← hr]
          rw [hrs]
          rfl

/-- Claim C4: whenever the node loops return normally, the Graph Node
Matcher includes a node exactly when its `data.type` equals the target
kind and the lowered keyword is a substring of a candidate field's
lowered value (fields OR-ed); matched nodes appear in document node
order (both loop outputs equal the order-preserving declarative match
lists); and a document with zero nodes of the target kind yields an
empty match list. -/
theorem claim_C4_graph_node_matcher (kw : String) (nodes : List PyVal)
    (outT : List ToolEntry) (outL : List LlmEntry)
    (hT : matchToolNodes kw nodes = Except.ok outT)
    (hL : matchLlmNodes kw nodes = Except.ok outL) :
    outT = claimToolMatchList kw nodes ∧
    outL = claimLlmMatchList kw nodes ∧
    ((∀ n ∈ nodes,
        pyEqStr (dLookup (dLookup n "data" (.dict [])) "type" (.str "")) "tool"
          = false) → outT = []) ∧
    ((∀ n ∈ nodes,
        pyEqStr (dLookup (dLookup n "data" (.dict [])) "type" (.str "")) "llm"
          = false) → outL = []) := by
  refine ⟨matchToolNodes_ok hT, matchLlmNodes_ok hL, ?_, ?_⟩
  · intro hnone
    rw [matchToolNodes_ok hT]
    unfold claimToolMatchList
    rw [List.filterMap_eq_nil_iff]
    intro n hn
    simp [claimToolExtract, hnone n hn]
  · intro hnone
    rw [matchLlmNodes_ok hL]
    unfold claimLlmMatchList
    rw [List.filterMap_eq_nil_iff]
    intro n hn
    simp [claimLlmExtract, hnone n hn]

/-- Witness for C4 on a two-node document: the tool node with
`provider_id = "google_search"` matches keyword `"google"` and the LLM
node does not. -/
theorem claim_C4_witness :
    [({ node_id := .str "n1", node_title := .str "Search",
        provider_id := .str "google_search", tool_name := .str "search" }
        : ToolEntry)] =
      claimToolMatchList "google"
        [.dict [("id", .str "n1"), ("data", .dict
          [("type", .str "tool"), ("provider_id", .str "google_search"),
           ("tool_name", .str "search"), ("title", .str "Search")])],
         .dict [("id", .str "n2"), ("data", .dict
          [("type", .str "llm"),
           ("model", .dict [("name", .str "claude-3"),
             ("provider", .str "anthropic")]),
           ("title", .str "LLM")])]] ∧
    ([] : List LlmEntry) =
      claimLlmMatchList "google"
        [.dict [("id", .str "n1"), ("data", .dict
          [("type", .str "tool"), ("provider_id", .str "google_search"),
           ("tool_name", .str "search"), ("title", .str "Search")])],
         .dict [("id", .str "n2"), ("data", .dict
          [("type", .str "llm"),
           ("model", .dict [("name", .str "claude-3"),
             ("provider", .str "anthropic")]),
           ("title", .str "LLM")])]] :=
  by
  have h := claim_C4_graph_node_matcher "google"
    [.dict [("id", .str "n1"), ("data", .dict
      [("type", .str "tool"), ("provider_id", .str "google_search"),
       ("tool_name", .str "search"), ("title", .str "Search")])],
     .dict [("id", .str "n2"), ("data", .dict
      [("type", .str "llm"),
       ("model", .dict [("name", .str "claude-3"),
         ("provider", .str "anthropic")]),
       ("title", .str "LLM")])]]
    [({ node_id := .str "n1", node_title := .str "Search",
        provider_id := .str "google_search", tool_name := .str "search" }
        : ToolEntry)] [] rfl rfl
  exact ⟨h.1, h.2.1⟩

/-- Claim C5: in `search_workflows_by_llm`, whenever the per-node
processing returns normally, the emitted entry agrees with the
declarative contract; the resolved model name and provider are read from
the nested `model` mapping's `name`/`provider` entries when the `model`
field is a mapping, and otherwise from the top-level `model` value
coerced to a string and the top-level `provider` field coerced to a
string; and the node qualifies exactly when either resolved value
contains the keyword case-insensitively. -/
theorem claim_C5_llm_extraction (kw : String) (node : PyVal)
    (r : Option LlmEntry) (h : processLlmNode kw node = Except.ok r) :
    r = claimLlmExtract kw node ∧
    (∀ m, dLookup (dLookup node "data" (.dict [])) "model" PyVal.none
        = .dict m →
      resolvedModelName (dLookup node "data" (.dict []))
          = dGetD m "name" (.str "") ∧
      resolvedProvider (dLookup node "data" (.dict []))
          = dGetD m "provider" (.str "")) ∧
    (isDict (dLookup (dLookup node "data" (.dict [])) "model" PyVal.none)
        = false →
      resolvedModelName (dLookup node "data" (.dict []))
          = .str (pyStr (dLookup (dLookup node "data" (.dict []))
              "model" (.str ""))) ∧
      resolvedProvider (dLookup node "data" (.dict []))
          = .str (pyStr (dLookup (dLookup node "data" (.dict []))
              "provider" (.str "")))) ∧
    r.isSome =
      (pyEqStr (dLookup (dLookup node "data" (.dict [])) "type" (.str ""))
          "llm"
        && (pyInStr kw
              (lowerOrEmpty (resolvedModelName (dLookup node "data" (.dict []))))
          || pyInStr kw
              (lowerOrEmpty (resolvedProvider (dLookup node "data" (.dict [])))))) := by
  have h1 := processLlmNode_ok h
  refine ⟨h1, ?_, ?_, ?_⟩
  · intro m hm
    constructor
    · unfold resolvedModelName
      rw [hm]
      simp [isDict, dLookup]
    · unfold resolvedProvider
      rw [hm]
      simp [isDict, dLookup]
  · intro hd
    constructor
    · unfold resolvedModelName
      rw [hd]
      simp
    · unfold resolvedProvider
      rw [hd]
      simp
  · rw [h1]
    cases hc : (pyEqStr (dLookup (dLookup node "data" (.dict [])) "type"
          (.str "")) "llm"
        && (pyInStr kw
              (lowerOrEmpty (resolvedModelName (dLookup node "data" (.dict []))))
          || pyInStr kw
              (lowerOrEmpty (resolvedProvider (dLookup node "data" (.dict [])))))) with
    | true => simp [claimLlmExtract, hc]
    | false => simp [claimLlmExtract, hc]

/-- Witness for C5 on a concrete LLM node with a nested model mapping,
matched by keyword `"claude"`. -/
theorem claim_C5_witness :
    (Option.some (LlmEntry.mk (.str "n1") (.str "LLM")
        (.str "claude-3") (.str "anthropic")))
        = claimLlmExtract "claude"
          (.dict [("id", .str "n1"), ("data", .dict
            [("type", .str "llm"),
             ("model", .dict [("name", .str "claude-3"),
               ("provider", .str "anthropic")]),
             ("title", .str "LLM")])]) ∧
    (Option.some (LlmEntry.mk (.str "n1") (.str "LLM")
        (.str "claude-3") (.str "anthropic"))).isSome
      = true := by
  have h := claim_C5_llm_extraction "claude"
    (.dict [("id", .str "n1"), ("data", .dict
      [("type", .str "llm"),
       ("model", .dict [("name", .str "claude-3"),
         ("provider", .str "anthropic")]),
       ("title", .str "LLM")])])
    (Option.some (LlmEntry.mk (.str "n1") (.str "LLM")
      (.str "claude-3") (.str "anthropic")))
    rfl
  exact ⟨h.1, rfl⟩

/-- The `DISTINCT ON` selection is a sublist of its input. -/
theorem distinctOnFirstAux_sublist {α : Type} (key : α → Nat) :
    ∀ (l : List α) (seen : List Nat),
      (distinctOnFirstAux key seen l).Sublist l := by
  intro l
  induction l with
  | nil => intro seen; simp [distinctOnFirstAux]
  | cons r rs ih =>
    intro seen
    unfold distinctOnFirstAux
    by_cases hs : key r ∈ seen
    · simp only [hs, if_true]
      exact (ih seen).cons r
    · simp only [hs, if_false]
      exact (ih (key r :: seen)).cons₂ r

/-- Every selected row has a key that was not among the seen keys. -/
theorem mem_distinctOnFirstAux_not_seen {α : Type} (key : α → Nat) :
    ∀ (l : List α) (seen : List Nat) (x : α),
      x ∈ distinctOnFirstAux key seen l → key x ∉ seen := by
  intro l
  induction l with
  | nil => intro seen x hx; simp [distinctOnFirstAux] at hx
  | cons r rs ih =>
    intro seen x hx
    unfold distinctOnFirstAux at hx
    by_cases hs : key r ∈ seen
    · rw [if_pos hs] at hx
      exact ih seen x hx
    · rw [if_neg hs] at hx
      rcases List.mem_cons.mp hx with hxr | hx'
      · rw [hxr]; exact hs
      · intro hseen
        exact ih (key r :: seen) x hx' (List.mem_cons_of_mem _ hseen)

/-- The `DISTINCT ON` selection has pairwise distinct keys. -/
theorem distinctOnFirstAux_keys_pairwise {α : Type} (key : α → Nat) :
    ∀ (l : List α) (seen : List Nat),
      (distinctOnFirstAux key seen l).Pairwise (fun a b => key a ≠ key b) := by
  intro l
  induction l with
  | nil => intro seen; simp [distinctOnFirstAux]
  | cons r rs ih =>
    intro seen
    unfold distinctOnFirstAux
    by_cases hs : key r ∈ seen
    · rw [if_pos hs]
      exact ih seen
    · rw [if_neg hs]
      refine List.Pairwise.cons ?_ (ih (key r :: seen))
      intro b hb
      have := mem_distinctOnFirstAux_not_seen key rs (key r :: seen) b hb
      intro hkb
      exact this (hkb ▸ List.mem_cons_self _ _)

/-- A selected row is related by the sort order to every input row that
shares its key (unless that row is the selected one itself): the
selection keeps the first, hence sort-least, row of each key group. -/
theorem distinctOnFirstAux_first {α : Type} (key : α → Nat)
    (R : α → α → Prop) :
    ∀ (l : List α) (seen : List Nat), l.Pairwise R →
      ∀ x y, x ∈ distinctOnFirstAux key seen l → y ∈ l → key y = key x →
        R x y ∨ y = x := by
  intro l
  induction l with
  | nil => intro seen _ x y hx; simp [distinctOnFirstAux] at hx
  | cons r rs ih =>
    intro seen hp x y hx hy hk
    have hhead := (List.pairwise_cons.mp hp).1
    have htail := (List.pairwise_cons.mp hp).2
    unfold distinctOnFirstAux at hx
    by_cases hs : key r ∈ seen
    · rw [if_pos hs] at hx
      rcases List.mem_cons.mp hy with hyr | hy'
      · exfalso
        have := mem_distinctOnFirstAux_not_seen key rs seen x hx
        rw [← hk, hyr] at this
        exact this hs
      · exact ih seen htail x y hx hy' hk
    · rw [if_neg hs] at hx
      rcases List.mem_cons.mp hx with hxr | hx'
      · rcases List.mem_cons.mp hy with hyr | hy'
        · exact Or.inr (hyr.trans hxr.symm)
        · exact Or.inl (hxr ▸ hhead y hy')
      · rcases List.mem_cons.mp hy with hyr | hy'
        · exfalso
          have := mem_distinctOnFirstAux_not_seen key rs (key r :: seen) x hx'
          rw [← hk, hyr] at this
          exact this (List.mem_cons_self _ _)
        · exact ih (key r :: seen) htail x y hx' hy' hk

/-- Counterexample to claim C2 as stated: the workflow result set of
`search_dify_credentials` is not ordered by most-recently-updated.  With
two matching applications where app 2 was updated later (timestamp 20)
than app 1 (timestamp 10), the query returns app 1 first: the
`DISTINCT ON` query orders by `app_id` first, `updated_at DESC` only
within an app. -/
theorem claim_C2_counterexample :
    workflows_env_query "" [⟨1, "e", 0, 10⟩, ⟨2, "e", 0, 20⟩]
      = [⟨1, "e", 0, 10⟩, ⟨2, "e", 0, 20⟩] ∧
    ¬ (workflows_env_query "" [⟨1, "e", 0, 10⟩, ⟨2, "e", 0, 20⟩]).Pairwise
        (fun a b => b.updated_at ≤ a.updated_at) := by
  constructor
  · rfl
  · intro h
    rw [show workflows_env_query "" [⟨1, "e", 0, 10⟩, ⟨2, "e", 0, 20⟩]
        = [⟨1, "e", 0, 10⟩, ⟨2, "e", 0, 20⟩] from rfl] at h
    have h20 := (List.pairwise_cons.mp h).1 ⟨2, "e", 0, 20⟩ (by simp)
    have : (20 : Int) ≤ 10 := h20
    omega

/-- Amendment of claim C2 that the code satisfies: the workflow-source
result set of `search_dify_credentials` contains at most one row per
application id; for two matching rows sharing an application id, the one
with the earlier update timestamp never appears; the set is capped at 50
rows; and it is ordered by application id ascending (the update
timestamp orders rows only within an application group), unlike the two
credential sources, which are ordered by `updated_at` descending. -/
theorem claim_C2_amended (kw : String) (tbl : List WorkflowsEnvRow)
    (r1 r2 : WorkflowsEnvRow) (h1 : r1 ∈ tbl) (h2 : r2 ∈ tbl)
    (hm2 : ilikeContains r2.environment_variables kw = true)
    (happ : r1.app_id = r2.app_id) (hlt : r1.updated_at < r2.updated_at) :
    r1 ∉ workflows_env_query kw tbl ∧
    (workflows_env_query kw tbl).length ≤ 50 ∧
    (workflows_env_query kw tbl).Pairwise (fun a b => a.app_id ≠ b.app_id) ∧
    (workflows_env_query kw tbl).Pairwise (fun a b => a.app_id ≤ b.app_id) ∧
    (∀ (pmcTbl : List ProviderModelCredentialsRow),
      (provider_model_credentials_query kw pmcTbl).Pairwise
        (fun a b => b.updated_at ≤ a.updated_at)) ∧
    (∀ (tbpTbl : List ToolBuiltinProvidersRow),
      (tool_builtin_providers_query kw tbpTbl).Pairwise
        (fun a b => b.updated_at ≤ a.updated_at)) := by
  have hsort : (List.insertionSort
      (appIdThenUpdatedDesc WorkflowsEnvRow.app_id WorkflowsEnvRow.updated_at)
      (tbl.filter (fun r => ilikeContains r.environment_variables kw))).Pairwise
      (appIdThenUpdatedDesc WorkflowsEnvRow.app_id WorkflowsEnvRow.updated_at) :=
    List.sorted_insertionSort _ _
  have hded : (workflows_env_query kw tbl).Sublist
      (distinctOnFirst WorkflowsEnvRow.app_id
        (List.insertionSort
          (appIdThenUpdatedDesc WorkflowsEnvRow.app_id WorkflowsEnvRow.updated_at)
          (tbl.filter (fun r => ilikeContains r.environment_variables kw)))) :=
    List.take_sublist _ _
  refine ⟨?_, ?_, ?_, ?_, ?_, ?_⟩
  · intro hin
    have hin' := hded.subset hin
    have hr2F : r2 ∈ tbl.filter
        (fun r => ilikeContains r.environment_variables kw) :=
      List.mem_filter.mpr ⟨h2, hm2⟩
    have hr2S : r2 ∈ List.insertionSort
        (appIdThenUpdatedDesc WorkflowsEnvRow.app_id WorkflowsEnvRow.updated_at)
        (tbl.filter (fun r => ilikeContains r.environment_variables kw)) :=
      ((List.perm_insertionSort _ _).mem_iff).mpr hr2F
    have hfirst := distinctOnFirstAux_first WorkflowsEnvRow.app_id
      (appIdThenUpdatedDesc WorkflowsEnvRow.app_id WorkflowsEnvRow.updated_at)
      _ [] hsort r1 r2 hin' hr2S happ.symm
    rcases hfirst with hR | heq
    · rcases hR with hlt2 | ⟨_, hle⟩
      · rw [happ] at hlt2
        exact absurd hlt2 (lt_irrefl _)
      · exact absurd hlt (not_lt.mpr hle)
    · rw [heq] at hlt
      exact absurd hlt (lt_irrefl _)
  · unfold workflows_env_query
    rw [List.length_take]
    exact min_le_left _ _
  · exact List.Pairwise.sublist hded (distinctOnFirstAux_keys_pairwise _ _ [])
  · have hp : (workflows_env_query kw tbl).Pairwise
        (appIdThenUpdatedDesc WorkflowsEnvRow.app_id WorkflowsEnvRow.updated_at) :=
      List.Pairwise.sublist
        (hded.trans (distinctOnFirstAux_sublist _ _ [])) hsort
    refine hp.imp ?_
    intro a b hab
    rcases hab with hlt2 | ⟨heq, _⟩
    · exact Nat.le_of_lt hlt2
    · exact Nat.le_of_eq heq
  · intro pmcTbl
    exact List.Pairwise.sublist (List.take_sublist _ _)
      (List.sorted_insertionSort
        (updatedAtDesc ProviderModelCredentialsRow.updated_at) _)
  · intro tbpTbl
    exact List.Pairwise.sublist (List.take_sublist _ _)
      (List.sorted_insertionSort
        (updatedAtDesc ToolBuiltinProvidersRow.updated_at) _)

/-- Witness for the amended C2: with two matching rows for the same
application, the older row is dropped, and the bounds hold. -/
theorem claim_C2_witness :
    (⟨1, "e", 0, 10⟩ : WorkflowsEnvRow) ∉
      workflows_env_query "" [⟨1, "e", 0, 10⟩, ⟨1, "e", 0, 20⟩] ∧
    (workflows_env_query "" [⟨1, "e", 0, 10⟩, ⟨1, "e", 0, 20⟩]).length ≤ 50 := by
  have h := claim_C2_amended "" [⟨1, "e", 0, 10⟩, ⟨1, "e", 0, 20⟩]
    ⟨1, "e", 0, 10⟩ ⟨1, "e", 0, 20⟩ (by simp) (by simp) rfl rfl (by decide)
  exact ⟨h.1, h.2.1⟩
